import Mathlib

/-!
Beam-search example and embedding example: shallow embedding.

Embedding of `examples/beam-search/beam-search.cpp` (the observer callback
`beam_search_callback`, its helper `is_at_eob`, and `main`) and of the
batching loop of `examples/embedding/embedding.cpp`.

Conventions
* A C array given as pointer plus length (`tokens`/`n_tokens`,
  `beam_views`/`n_beams`, a `std::vector`) is a `List`; its length field is
  the list's length.  An access outside the array is an error result.
* `size_t` and `int` values are `Nat`/`Int` with explicit wrap-around
  (`to_size_t`, `to_int`) where the source converts or subtracts.
* Calls into the llama library are taken from a `World` record.
* Printing is not modelled.
-/

namespace Cxx

/-- Conversion of an integer value to `size_t` (64 bits): reduction modulo
`2^64`. -/
def to_size_t (x : Int) : Nat := (x % 2 ^ 64).toNat

/-- Conversion of an integer value to `int` (32 bits, two's complement). -/
def to_int (x : Int) : Int := (x + 2 ^ 31) % 2 ^ 32 - 2 ^ 31

/-- Subtraction of two `size_t` values: wraps modulo `2^64`. -/
def size_t_sub (a b : Nat) : Nat := (a + (2 ^ 64 - b % 2 ^ 64)) % 2 ^ 64

/-- Addition of two `size_t` values: wraps modulo `2^64`. -/
def size_t_add (a b : Nat) : Nat := (a + b) % 2 ^ 64

end Cxx

namespace BeamSearch

open Cxx

/-- Token identifier (`llama_token`, a 32-bit integer that the example only
copies and compares). -/
abbrev llama_token := Int

/-- Modelled from the spec: `llama.h` is not among the sources; of the model
only the distinguished end-of-sequence token is consulted
(`llama_token_eos`). -/
structure llama_model where
  token_eos : llama_token

/-- Modelled from the spec: `llama.h` is not among the sources; of the context
only its model (`llama_get_model`) and its context size (`llama_n_ctx`, an
`int`) are consulted. -/
structure llama_context where
  model : llama_model
  n_ctx : Int

def llama_get_model (ctx : llama_context) : llama_model := ctx.model

def llama_token_eos (m : llama_model) : llama_token := m.token_eos

def llama_n_ctx (ctx : llama_context) : Int := ctx.n_ctx

/-- Modelled from the spec: the declaration of `llama_beam_view` in `llama.h`
is not among the sources; the fields are those the callback uses:
`tokens`/`n_tokens` as a list, the cumulative probability `p`, and the
end-of-beam flag `eob`. -/
structure llama_beam_view where
  tokens : List llama_token
  p : Float
  eob : Bool

def llama_beam_view.n_tokens (v : llama_beam_view) : Nat := v.tokens.length

/-- Modelled from the spec: the declaration of `llama_beams_state` in
`llama.h` is not among the sources; the fields are those the callback uses:
`beam_views`/`n_beams` as a list, `common_prefix_length`, and `last_call`. -/
structure llama_beams_state where
  beam_views : List llama_beam_view
  common_prefix_length : Nat
  last_call : Bool

def llama_beams_state.n_beams (s : llama_beams_state) : Nat := s.beam_views.length

structure beam_search_callback_data where
  ctx : llama_context
  response : List llama_token

/-- `n_tokens && tokens[n_tokens-1] == llama_token_eos(llama_get_model(ctx))`. -/
def is_at_eob (callback_data : beam_search_callback_data) (tokens : List llama_token) : Bool :=
  tokens.length != 0 &&
    (match tokens[tokens.length - 1]? with
     | some t => t == llama_token_eos (llama_get_model callback_data.ctx)
     | none => false)

/-- Ways in which the callback does not return. -/
inductive CallbackError
  /-- `assert(0u < beams_state.n_beams)` fails (reading `beam_views[0]` of an
  empty beam set). -/
  | assert_n_beams
  /-- `std::copy` reads `tokens[index]` with `index ≥ n_tokens`. -/
  | read_past_end (index : Nat)
  /-- `std::copy` writes outside the destination vector. -/
  | write_past_end (index : Nat)
deriving DecidableEq, Repr

/-- The first loop of `beam_search_callback`:
`for (i = 0; i < n_beams; ++i) if (!eob && is_at_eob(..)) beam_views[i].eob = true;`
with `remaining = n_beams - i`. -/
def mark_eob_loop (callback_data : beam_search_callback_data) :
    (remaining : Nat) → (i : Nat) → List llama_beam_view → List llama_beam_view
  | 0, _, views => views
  | remaining + 1, i, views =>
    match views[i]? with
    | none => views
    | some beam_view =>
      if !beam_view.eob && is_at_eob callback_data beam_view.tokens then
        mark_eob_loop callback_data remaining (i + 1) (views.set i { beam_view with eob := true })
      else
        mark_eob_loop callback_data remaining (i + 1) views

/-- `std::vector::resize(m)`: truncate or pad with value-initialised (zero)
tokens. -/
def vector_resize (v : List llama_token) (m : Nat) : List llama_token :=
  v.take m ++ List.replicate (m - v.length) 0

/-- `std::copy(src + i, src + i + count, dst + o)` on arrays: element by
element, failing on an access outside either array. -/
def std_copy (src : List llama_token) :
    (count : Nat) → (i : Nat) → (dst : List llama_token) → (o : Nat) →
      Except CallbackError (List llama_token)
  | 0, _, dst, _ => .ok dst
  | count + 1, i, dst, o =>
    match src[i]? with
    | none => .error (.read_past_end i)
    | some t =>
      if o < dst.length then std_copy src count (i + 1) (dst.set o t) (o + 1)
      else .error (.write_past_end o)

/-- The block `if (const size_t n = beams_state.common_prefix_length) { ... }`
of `beam_search_callback`, giving the new `response`. -/
def append_confirmed_tokens (response : List llama_token) (beams_state : llama_beams_state) :
    Except CallbackError (List llama_token) :=
  let n := beams_state.common_prefix_length
  if n != 0 then
    let resized := vector_resize response (response.length + n)
    match beams_state.beam_views[0]? with
    | none => .error .assert_n_beams
    | some beam_view0 => std_copy beam_view0.tokens n 0 resized (resized.length - n)
  else
    .ok response

/-- The callback: it marks beams at end-of-beam through the `beam_views`
pointer, then appends the common prefix, read from the marked views, to
`response`.  The result holds the callback data and the beams state as they
are when the callback returns. -/
def beam_search_callback (callback_data : beam_search_callback_data)
    (beams_state : llama_beams_state) :
    Except CallbackError (beam_search_callback_data × llama_beams_state) :=
  let views := mark_eob_loop callback_data beams_state.n_beams 0 beams_state.beam_views
  let beams_state' := { beams_state with beam_views := views }
  match append_confirmed_tokens callback_data.response beams_state' with
  | .error e => .error e
  | .ok response => .ok ({ callback_data with response := response }, beams_state')

/-- The callbacks made by one `llama_beam_search` call, in order, on the same
callback data. -/
def run_callbacks (callback_data : beam_search_callback_data) :
    List llama_beams_state → Except CallbackError beam_search_callback_data
  | [] => .ok callback_data
  | s :: rest =>
    match beam_search_callback callback_data s with
    | .error e => .error e
    | .ok (callback_data', _) => run_callbacks callback_data' rest

/-- Modelled from the spec: the declaration of `gpt_params` in `common.h` is
not among the sources; the fields are those `main` sets or reads. -/
structure gpt_params where
  model : String
  n_beams : Int
  prompt : String

/-- What `main` gets from the C++ library and the llama library. -/
structure World where
  /-- `std::stoi`: the parsed `int`, or `none` when it throws. -/
  stoi : String → Option Int
  /-- `llama_init_from_gpt_params`: the context, or `none` when the model
  pointer is `NULL`. -/
  llama_init_from_gpt_params : gpt_params → Option llama_context
  /-- `llama_tokenize(ctx, prompt, true)`. -/
  llama_tokenize : llama_context → String → List llama_token
  /-- `llama_decode` on the batch `llama_batch_get_one(tokens, n_tokens, pos_0, 0)`:
  its return code. -/
  llama_decode : llama_context → List llama_token → Int → Int → Int
  /-- `llama_beam_search(ctx, callback, data, n_beams, n_past, n_predict)`: the
  beams states with which the engine invokes the callback, in order. -/
  llama_beam_search : llama_context → Nat → Int → Int → List llama_beams_state

/-- Library calls made by `main`, with their arguments. -/
inductive Event
  | decode (tokens : List llama_token) (n_tokens : Int) (pos_0 : Int)
  | beam_search (n_beams : Nat) (n_past : Int) (n_predict : Int)
deriving DecidableEq, Repr

/-- How `main` ends. -/
inductive Exit
  | returned (code : Int)
  /-- `std::stoi` threw; nothing catches it. -/
  | uncaught_exception
  /-- A callback did not return. -/
  | callback_failed (e : CallbackError)
deriving DecidableEq, Repr

/-- A run of `main`: the library calls made, how it ended, and the response
tokens printed after the search. -/
structure Run where
  events : List Event
  exit : Exit
  response : List llama_token
deriving DecidableEq, Repr

def default_prompt : String :=
  "### Request:\nHow many countries are there?\n\n### Response:\n"

/-- Lines 66 to 79 of `main`: the usage check and the filling of `params` from
`argv`, which holds the `argc` program arguments.  A default-constructed
`gpt_params` has the empty prompt.  The error result is the run of a `main`
that ends here. -/
def parse_args (w : World) (argv : List String) : Except Run gpt_params :=
  let argc := argv.length
  if argc < 2 || (argv[1]?.bind fun a => a.data.head?) == some '-' then
    .error ⟨[], .returned 1, []⟩
  else
    match (if 2 < argc then w.stoi (argv[2]?.getD "") else some 2) with
    | none => .error ⟨[], .uncaught_exception, []⟩
    | some n_beams =>
      let prompt0 := if argc > 3 then argv[3]?.getD "" else ""
      let prompt := if prompt0 = "" then default_prompt else prompt0
      .ok { model := argv[1]?.getD "", n_beams := n_beams, prompt := prompt }

/-- Lines 81 to 153 of `main`: model loading, the prompt length check, the
prompt decode, and the beam search with its callbacks. -/
def main_with_params (w : World) (params : gpt_params) : Run :=
  match w.llama_init_from_gpt_params params with
  | none => ⟨[], .returned 1, []⟩
  | some ctx =>
    let tokens_list := w.llama_tokenize ctx params.prompt
    let max_context_size : Nat := to_size_t (llama_n_ctx ctx)
    let max_tokens_list_size : Nat := size_t_sub max_context_size 4
    if tokens_list.length > max_tokens_list_size then
      ⟨[], .returned 1, []⟩
    else
      let n_past : Int := 0
      let n_tokens : Int := to_int tokens_list.length
      if w.llama_decode ctx tokens_list n_tokens n_past != 0 then
        ⟨[.decode tokens_list n_tokens n_past], .returned 1, []⟩
      else
        let n_past' : Int := to_int (size_t_add (to_size_t n_past) tokens_list.length)
        let beam_width : Nat := to_size_t params.n_beams
        let n_predict : Int := 256
        let events := [Event.decode tokens_list n_tokens n_past,
                       Event.beam_search beam_width n_past' n_predict]
        match run_callbacks { ctx := ctx, response := [] }
            (w.llama_beam_search ctx beam_width n_past' n_predict) with
        | .error e => ⟨events, .callback_failed e, []⟩
        | .ok callback_data => ⟨events, .returned 0, callback_data.response⟩

/-- The function `main` of `beam-search.cpp`. -/
def main (w : World) (argv : List String) : Run :=
  match parse_args w argv with
  | .error run => run
  | .ok params => main_with_params w params

/-- What one iteration of the marking loop of `beam_search_callback` does to
the beam view it visits. -/
def mark_view (d : beam_search_callback_data) (v : llama_beam_view) : llama_beam_view :=
  if !v.eob && is_at_eob d v.tokens then { v with eob := true } else v

/-- The tokens that one callback invocation is told are confirmed: the first
`common_prefix_length` tokens of beam 0 (none when there is no beam). -/
def confirmed_tokens (s : llama_beams_state) : List llama_token :=
  match s.beam_views[0]? with
  | some v => v.tokens.take s.common_prefix_length
  | none => []

/-- The contract of the engine towards the callback: an empty beam set comes
with `common_prefix_length = 0`, and `common_prefix_length` is at most the
token count of every beam. -/
def engine_contract (s : llama_beams_state) : Prop :=
  (s.n_beams = 0 → s.common_prefix_length = 0) ∧
  ∀ v ∈ s.beam_views, s.common_prefix_length ≤ v.n_tokens

/-- A world for concrete runs: the arguments `0`, `-1` and `4` parse to their
values (any other makes `std::stoi` throw), the model loads with context size
512 and end-of-sequence token 2, every prompt tokenizes to the two tokens 1
and 15, decoding succeeds, and the engine makes no callback. -/
def example_world : World where
  stoi := fun a =>
    if a = "0" then some 0 else if a = "-1" then some (-1) else if a = "4" then some 4 else none
  llama_init_from_gpt_params := fun _ => some { model := { token_eos := 2 }, n_ctx := 512 }
  llama_tokenize := fun _ _ => [1, 15]
  llama_decode := fun _ _ _ _ => 0
  llama_beam_search := fun _ _ _ _ => []

end BeamSearch

namespace Embedding

open Cxx

abbrev llama_token := BeamSearch.llama_token

/-- One `llama_decode` call of the loop: the batch
`llama_batch_get_one(embd_inp.data(), n_tokens, n_past, 0)`, with the tokens it
covers. -/
structure DecodeCall where
  tokens : List llama_token
  n_tokens : Int
  pos_0 : Int
deriving DecidableEq, Repr

/-- How lines 86 to 101 of `main` end. -/
inductive Exit
  /-- The loop ran to its end and `main` goes on to print the embedding. -/
  | loop_done
  /-- The prompt is longer than the context window: `return 1`. -/
  | prompt_too_long
  /-- A `llama_decode` call failed: `return 1`. -/
  | decode_failed
  /-- The argument `begin() + n_tokens` of `erase` lies before `begin()` or
  after `end()`. -/
  | erase_out_of_range
deriving DecidableEq, Repr

/-- The variables of the loop, with the decode calls made so far. -/
structure LoopState where
  embd_inp : List llama_token
  n_past : Int
  calls : List DecodeCall
deriving DecidableEq, Repr

/-- The loop `while (!embd_inp.empty()) { ... }`.  `llama_decode` gets the
calls made before and the current one and gives the return code.  The result
is `none` when `fuel` iterations do not end the loop. -/
def batch_loop (llama_decode : List DecodeCall → DecodeCall → Int) (n_batch : Int) :
    (fuel : Nat) → LoopState → Option (Exit × LoopState)
  | _, ⟨[], n_past, calls⟩ => some (.loop_done, ⟨[], n_past, calls⟩)
  | 0, ⟨_ :: _, _, _⟩ => none
  | fuel + 1, ⟨tok :: rest, n_past, calls⟩ =>
    let embd_inp := tok :: rest
    let n_tokens : Int := min n_batch (to_int embd_inp.length)
    let call : DecodeCall := ⟨embd_inp.take n_tokens.toNat, n_tokens, n_past⟩
    if llama_decode calls call != 0 then
      some (.decode_failed, ⟨embd_inp, n_past, calls ++ [call]⟩)
    else
      let n_past' := to_int (n_past + n_tokens)
      if 0 ≤ n_tokens ∧ n_tokens ≤ embd_inp.length then
        batch_loop llama_decode n_batch fuel
          ⟨embd_inp.drop n_tokens.toNat, n_past', calls ++ [call]⟩
      else
        some (.erase_out_of_range, ⟨embd_inp, n_past', calls ++ [call]⟩)

/-- Lines 86 to 101 of `main` in `embedding.cpp`: the length check against
`n_ctx`, then the batching loop started with `n_past = 0`. -/
def main_eval_prompt (llama_decode : List DecodeCall → DecodeCall → Int) (n_ctx n_batch : Int)
    (embd_inp : List llama_token) (fuel : Nat) : Option (Exit × LoopState) :=
  if embd_inp.length > to_size_t n_ctx then
    some (.prompt_too_long, ⟨embd_inp, 0, []⟩)
  else
    batch_loop llama_decode n_batch fuel ⟨embd_inp, 0, []⟩

end Embedding

/-! ## Integer conversions -/

namespace Cxx

theorem to_size_t_of_nonneg (x : Int) (h0 : 0 ≤ x) (h1 : x < 2 ^ 64) : to_size_t x = x.toNat := by
  unfold to_size_t
  rw [Int.emod_eq_of_lt h0 h1]

theorem size_t_sub_of_le (a b : Nat) (hb : b ≤ a) (ha : a < 2 ^ 64) : size_t_sub a b = a - b := by
  unfold size_t_sub
  have hb' : b % 2 ^ 64 = b := Nat.mod_eq_of_lt (by omega)
  rw [hb']
  have : a + (2 ^ 64 - b) = (a - b) + 2 ^ 64 := by omega
  rw [this, Nat.add_mod_right]
  exact Nat.mod_eq_of_lt (by omega)

theorem to_int_of_range (x : Int) (h0 : -2 ^ 31 ≤ x) (h1 : x < 2 ^ 31) : to_int x = x := by
  unfold to_int
  rw [Int.emod_eq_of_lt (by omega) (by omega)]
  omega

end Cxx

/-! ## The callback -/

namespace BeamSearch

open Cxx

theorem mark_eob_loop_length (d : beam_search_callback_data) :
    ∀ (remaining i : Nat) (views : List llama_beam_view),
      (mark_eob_loop d remaining i views).length = views.length := by
  intro remaining
  induction remaining with
  | zero => intro i views; rfl
  | succ r ih =>
    intro i views
    unfold mark_eob_loop
    cases hv : views[i]? with
    | none => rfl
    | some v =>
      simp only
      split
      · rw [ih]; simp
      · rw [ih]

theorem mark_eob_loop_getElem? (d : beam_search_callback_data) :
    ∀ (remaining i : Nat) (views : List llama_beam_view), i + remaining ≤ views.length →
      ∀ k, (mark_eob_loop d remaining i views)[k]? =
        if i ≤ k ∧ k < i + remaining then (views[k]?).map (mark_view d) else views[k]? := by
  intro remaining
  induction remaining with
  | zero =>
    intro i views _ k
    have : ¬ (i ≤ k ∧ k < i + 0) := by omega
    rw [if_neg this]; rfl
  | succ r ih =>
    intro i views hlen k
    have hi : i < views.length := by omega
    unfold mark_eob_loop
    rw [List.getElem?_eq_getElem hi]
    simp only
    split
    · rename_i hc
      rw [ih (i + 1) _ (by simp; omega) k]
      by_cases hk : k = i
      · subst hk
        have h1 : ¬ (k + 1 ≤ k ∧ k < k + 1 + r) := by omega
        have h2 : (k ≤ k ∧ k < k + (r + 1)) := by omega
        rw [if_neg h1, if_pos h2, List.getElem?_eq_getElem hi]
        simp [mark_view, hc, List.getElem?_set, hi]
      · have hne : i ≠ k := fun h => hk h.symm
        rw [List.getElem?_set_ne hne]
        by_cases hr : i + 1 ≤ k ∧ k < i + 1 + r
        · have h2 : (i ≤ k ∧ k < i + (r + 1)) := by omega
          simp [hr, h2]
        · have h2 : ¬ (i ≤ k ∧ k < i + (r + 1)) := by omega
          simp [hr, h2]
    · rename_i hc
      rw [ih (i + 1) _ (by omega) k]
      by_cases hk : k = i
      · subst hk
        have h1 : ¬ (k + 1 ≤ k ∧ k < k + 1 + r) := by omega
        have h2 : (k ≤ k ∧ k < k + (r + 1)) := by omega
        simp [h1, h2, List.getElem?_eq_getElem hi, mark_view, hc]
      · by_cases hr : i + 1 ≤ k ∧ k < i + 1 + r
        · have h2 : (i ≤ k ∧ k < i + (r + 1)) := by omega
          simp [hr, h2]
        · have h2 : ¬ (i ≤ k ∧ k < i + (r + 1)) := by omega
          simp [hr, h2]

theorem mark_eob_loop_eq_map (d : beam_search_callback_data) (views : List llama_beam_view) :
    mark_eob_loop d views.length 0 views = views.map (mark_view d) := by
  apply List.ext_getElem?
  intro k
  rw [mark_eob_loop_getElem? d views.length 0 views (by omega) k]
  by_cases hk : k < views.length
  · have : 0 ≤ k ∧ k < 0 + views.length := by omega
    rw [if_pos this, List.getElem?_map]
  · have : ¬ (0 ≤ k ∧ k < 0 + views.length) := by omega
    have h1 : views.length ≤ k := by omega
    rw [if_neg this, List.getElem?_map, List.getElem?_eq_none h1]; rfl

theorem std_copy_ok (src : List llama_token) :
    ∀ (count i : Nat) (dst : List llama_token) (o : Nat),
      i + count ≤ src.length → o + count ≤ dst.length →
      ∃ out, std_copy src count i dst o = .ok out ∧ out.length = dst.length ∧
        ∀ k, out[k]? = if o ≤ k ∧ k < o + count then src[i + (k - o)]? else dst[k]? := by
  intro count
  induction count with
  | zero =>
    intro i dst o _ _
    refine ⟨dst, rfl, rfl, ?_⟩
    intro k
    have : ¬ (o ≤ k ∧ k < o + 0) := by omega
    rw [if_neg this]
  | succ c ih =>
    intro i dst o hs hd
    have hi : i < src.length := by omega
    have ho : o < dst.length := by omega
    unfold std_copy
    rw [List.getElem?_eq_getElem hi]
    simp only [ho, if_true]
    obtain ⟨out, hout, hlen, hget⟩ := ih (i + 1) (dst.set o src[i]) (o + 1) (by omega)
      (by simp; omega)
    refine ⟨out, hout, by simpa using hlen, ?_⟩
    intro k
    rw [hget k]
    by_cases hk : k = o
    · subst hk
      have h1 : ¬ (k + 1 ≤ k ∧ k < k + 1 + c) := by omega
      have h2 : k ≤ k ∧ k < k + (c + 1) := by omega
      rw [if_neg h1, if_pos h2]
      simp [List.getElem?_set, ho, List.getElem?_eq_getElem hi]
    · have hne : o ≠ k := fun h => hk h.symm
      by_cases hr : o + 1 ≤ k ∧ k < o + 1 + c
      · have h2 : o ≤ k ∧ k < o + (c + 1) := by omega
        rw [if_pos hr, if_pos h2]
        have : i + 1 + (k - (o + 1)) = i + (k - o) := by omega
        rw [this]
      · have h2 : ¬ (o ≤ k ∧ k < o + (c + 1)) := by omega
        rw [if_neg hr, if_neg h2, List.getElem?_set_ne hne]

theorem append_confirmed_tokens_zero (r : List llama_token) (s : llama_beams_state)
    (h0 : s.common_prefix_length = 0) : append_confirmed_tokens r s = .ok r := by
  simp [append_confirmed_tokens, h0]

theorem append_confirmed_tokens_ok (r : List llama_token) (s : llama_beams_state)
    (v : llama_beam_view) (hv : s.beam_views[0]? = some v)
    (hn : s.common_prefix_length ≤ v.tokens.length) :
    append_confirmed_tokens r s = .ok (r ++ v.tokens.take s.common_prefix_length) := by
  by_cases h0 : s.common_prefix_length = 0
  · rw [append_confirmed_tokens_zero r s h0, h0]; simp
  · unfold append_confirmed_tokens
    have hne : (s.common_prefix_length != 0) = true := by simpa using h0
    simp only [hne, if_true, hv]
    have hres : vector_resize r (r.length + s.common_prefix_length) =
        r ++ List.replicate s.common_prefix_length 0 := by
      simp [vector_resize]
    rw [hres]
    have hlen : (r ++ List.replicate s.common_prefix_length (0 : llama_token)).length
        - s.common_prefix_length = r.length := by simp
    rw [hlen]
    obtain ⟨out, hout, hl, hget⟩ := std_copy_ok v.tokens s.common_prefix_length 0
      (r ++ List.replicate s.common_prefix_length 0) r.length (by omega) (by simp)
    rw [hout]
    congr 1
    apply List.ext_getElem?
    intro k
    rw [hget k]
    by_cases hk : k < r.length
    · have : ¬ (r.length ≤ k ∧ k < r.length + s.common_prefix_length) := by omega
      rw [if_neg this, List.getElem?_append_left hk, List.getElem?_append_left hk]
    · have hk' : r.length ≤ k := by omega
      rw [List.getElem?_append_right hk', List.getElem?_append_right hk']
      by_cases hk2 : k < r.length + s.common_prefix_length
      · have : r.length ≤ k ∧ k < r.length + s.common_prefix_length := ⟨hk', hk2⟩
        rw [if_pos this, List.getElem?_take]
        have : k - r.length < s.common_prefix_length := by omega
        simp [this]
      · have : ¬ (r.length ≤ k ∧ k < r.length + s.common_prefix_length) := by omega
        rw [if_neg this, List.getElem?_take]
        have h3 : ¬ (k - r.length < s.common_prefix_length) := by omega
        simp [h3]
        omega

theorem mark_view_tokens (d : beam_search_callback_data) (v : llama_beam_view) :
    (mark_view d v).tokens = v.tokens := by
  unfold mark_view; split <;> rfl

theorem mark_view_p (d : beam_search_callback_data) (v : llama_beam_view) :
    (mark_view d v).p = v.p := by
  unfold mark_view; split <;> rfl

theorem mark_view_eob (d : beam_search_callback_data) (v : llama_beam_view) :
    (mark_view d v).eob = (v.eob || is_at_eob d v.tokens) := by
  unfold mark_view
  cases h1 : v.eob <;> cases h2 : is_at_eob d v.tokens <;> simp [h1]

theorem is_at_eob_iff (d : beam_search_callback_data) (tokens : List llama_token) :
    is_at_eob d tokens = true ↔
      tokens ≠ [] ∧ tokens.getLast? = some (llama_token_eos (llama_get_model d.ctx)) := by
  unfold is_at_eob
  rw [List.getLast?_eq_getElem?]
  cases h : tokens[tokens.length - 1]? with
  | none =>
    simp
  | some t =>
    simp

theorem append_confirmed_tokens_marked (d : beam_search_callback_data)
    (r : List llama_token) (s : llama_beams_state) :
    append_confirmed_tokens r { s with beam_views := s.beam_views.map (mark_view d) } =
      append_confirmed_tokens r s := by
  unfold append_confirmed_tokens
  simp only [List.getElem?_map]
  cases s.beam_views[0]? with
  | none => rfl
  | some v => simp only [Option.map_some', mark_view_tokens]

theorem callback_of_append (d : beam_search_callback_data) (s : llama_beams_state)
    (r : List llama_token) (h : append_confirmed_tokens d.response s = .ok r) :
    beam_search_callback d s =
      .ok ({ d with response := r }, { s with beam_views := s.beam_views.map (mark_view d) }) := by
  unfold beam_search_callback
  simp only [llama_beams_state.n_beams, mark_eob_loop_eq_map, append_confirmed_tokens_marked, h]

theorem callback_ok_inv (d d' : beam_search_callback_data) (s s' : llama_beams_state)
    (h : beam_search_callback d s = .ok (d', s')) :
    s' = { s with beam_views := s.beam_views.map (mark_view d) } ∧ d'.ctx = d.ctx ∧
      append_confirmed_tokens d.response s = .ok d'.response := by
  unfold beam_search_callback at h
  simp only [llama_beams_state.n_beams, mark_eob_loop_eq_map,
    append_confirmed_tokens_marked] at h
  cases ha : append_confirmed_tokens d.response s with
  | error e => simp [ha] at h
  | ok r =>
    simp only [ha] at h
    injection h with h
    injection h with h1 h2
    subst h1; subst h2
    exact ⟨rfl, rfl, rfl⟩

/-- The callback does not return when `common_prefix_length` is positive on an
empty beam set, nor when it exceeds the token count of beam 0. -/
theorem callback_failure_examples :
    beam_search_callback
        { ctx := { model := { token_eos := 2 }, n_ctx := 512 }, response := [7] }
        { beam_views := [], common_prefix_length := 1, last_call := false } =
      .error .assert_n_beams ∧
    beam_search_callback
        { ctx := { model := { token_eos := 2 }, n_ctx := 512 }, response := [7] }
        { beam_views := [{ tokens := [5, 6], p := 0.5, eob := false }],
          common_prefix_length := 3, last_call := false } =
      .error (.read_past_end 2) :=
  ⟨rfl, rfl⟩

/-- C1: with `n = common_prefix_length`, `n_beams > 0` and
`n ≤ beam_views[0].n_tokens`, one call of `beam_search_callback` returns and
leaves `response` equal to the old response followed by the first `n` tokens
of beam 0; the length grows by exactly `n` and every earlier position keeps
its token. -/
theorem callback_appends_confirmed_tokens (d : beam_search_callback_data)
    (s : llama_beams_state) (hb : 0 < s.n_beams)
    (hn : s.common_prefix_length ≤ (s.beam_views.get ⟨0, hb⟩).n_tokens) :
    ∃ d' s', beam_search_callback d s = .ok (d', s') ∧
      d'.response =
        d.response ++ (s.beam_views.get ⟨0, hb⟩).tokens.take s.common_prefix_length ∧
      d'.response.length = d.response.length + s.common_prefix_length ∧
      (∀ k, k < d.response.length → d'.response[k]? = d.response[k]?) ∧
      (∀ k, k < s.common_prefix_length →
        d'.response[d.response.length + k]? = (s.beam_views.get ⟨0, hb⟩).tokens[k]?) := by
  have hv : s.beam_views[0]? = some (s.beam_views.get ⟨0, hb⟩) := by
    simp [List.getElem?_eq_getElem (show 0 < s.beam_views.length from hb)]
  have ha := append_confirmed_tokens_ok d.response s _ hv hn
  refine ⟨_, _, callback_of_append d s _ ha, rfl, ?_, ?_, ?_⟩
  · have : s.common_prefix_length ≤ (s.beam_views.get ⟨0, hb⟩).tokens.length := hn
    show (d.response ++ _).length = _
    rw [List.length_append, List.length_take, Nat.min_eq_left this]
  · intro k hk
    simp [List.getElem?_append_left hk]
  · intro k hk
    simp [List.getElem?_append_right, List.getElem?_take, hk]

/-- Witness for C1: a two-token response, two beams sharing a prefix of
length two. -/
theorem callback_appends_confirmed_tokens_witness :
    ∃ d' s', beam_search_callback
        { ctx := { model := { token_eos := 2 }, n_ctx := 512 }, response := [7, 8] }
        { beam_views := [{ tokens := [5, 6, 2], p := 0.5, eob := false },
                         { tokens := [5, 6, 3], p := 0.25, eob := false }],
          common_prefix_length := 2, last_call := false } = .ok (d', s') ∧
      d'.response = [7, 8, 5, 6] := by
  obtain ⟨d', s', h, hr, -⟩ := callback_appends_confirmed_tokens
    { ctx := { model := { token_eos := 2 }, n_ctx := 512 }, response := [7, 8] }
    { beam_views := [{ tokens := [5, 6, 2], p := 0.5, eob := false },
                     { tokens := [5, 6, 3], p := 0.25, eob := false }],
      common_prefix_length := 2, last_call := false } (by decide) (by decide)
  exact ⟨d', s', h, hr⟩

theorem append_confirmed_tokens_eq (r : List llama_token) (s : llama_beams_state)
    (h : 0 < s.common_prefix_length → 0 < s.n_beams ∧
      ∀ v, s.beam_views[0]? = some v → s.common_prefix_length ≤ v.n_tokens) :
    append_confirmed_tokens r s = .ok (r ++ confirmed_tokens s) ∧
      (confirmed_tokens s).length = s.common_prefix_length := by
  by_cases h0 : s.common_prefix_length = 0
  · rw [append_confirmed_tokens_zero r s h0]
    unfold confirmed_tokens
    cases s.beam_views[0]? <;> simp [h0]
  · obtain ⟨hb, hn⟩ := h (Nat.pos_of_ne_zero h0)
    have hv : s.beam_views[0]? = some (s.beam_views.get ⟨0, hb⟩) := by
      simp [List.getElem?_eq_getElem (show 0 < s.beam_views.length from hb)]
    have hle : s.common_prefix_length ≤ (s.beam_views.get ⟨0, hb⟩).tokens.length := hn _ hv
    rw [append_confirmed_tokens_ok r s _ hv hle]
    unfold confirmed_tokens
    rw [hv]
    exact ⟨rfl, by rw [List.length_take, Nat.min_eq_left hle]⟩

theorem run_callbacks_ok (states : List llama_beams_state) :
    ∀ d : beam_search_callback_data,
    (∀ s ∈ states, 0 < s.common_prefix_length → 0 < s.n_beams ∧
      ∀ v, s.beam_views[0]? = some v → s.common_prefix_length ≤ v.n_tokens) →
    ∃ d', run_callbacks d states = .ok d' ∧ d'.ctx = d.ctx ∧
      d'.response = d.response ++ (states.map confirmed_tokens).flatten ∧
      ((states.map confirmed_tokens).flatten).length =
        (states.map fun s => s.common_prefix_length).sum := by
  induction states with
  | nil => intro d _; exact ⟨d, rfl, rfl, by simp, by simp⟩
  | cons s rest ih =>
    intro d h
    obtain ⟨ha, hl⟩ := append_confirmed_tokens_eq d.response s (h s (List.mem_cons_self _ _))
    obtain ⟨d', hrun, hctx, hresp, hlen⟩ := ih { d with response := d.response ++ confirmed_tokens s }
      (fun s' hs' => h s' (List.mem_cons_of_mem _ hs'))
    refine ⟨d', ?_, hctx, ?_, ?_⟩
    · unfold run_callbacks
      rw [callback_of_append d s _ ha]
      exact hrun
    · rw [hresp]; simp
    · simp only [List.map_cons, List.flatten_cons, List.length_append, List.sum_cons, hl, hlen]

/-- C2: a finite sequence of callback invocations started, as `main` does, on
an empty response, each invocation with `n_beams > 0` and
`common_prefix_length ≤ beam_views[0].n_tokens` whenever its
`common_prefix_length` is positive, returns, and the final response is the
concatenation in invocation order of the first `common_prefix_length` tokens
of beam 0 of each invocation; its length is the sum of the
`common_prefix_length` values. -/
theorem run_callbacks_response_is_concatenation (ctx : llama_context)
    (states : List llama_beams_state)
    (h : ∀ s ∈ states, 0 < s.common_prefix_length → 0 < s.n_beams ∧
      ∀ v, s.beam_views[0]? = some v → s.common_prefix_length ≤ v.n_tokens) :
    ∃ d', run_callbacks { ctx := ctx, response := [] } states = .ok d' ∧
      d'.response = (states.map confirmed_tokens).flatten ∧
      d'.response.length = (states.map fun s => s.common_prefix_length).sum := by
  obtain ⟨d', hrun, -, hresp, hlen⟩ := run_callbacks_ok states { ctx := ctx, response := [] } h
  have hr : d'.response = (states.map confirmed_tokens).flatten := by simpa using hresp
  exact ⟨d', hrun, hr, by rw [hr, hlen]⟩

/-- Witness for C2: three invocations confirming two, zero (on an empty beam
set) and one token. -/
theorem run_callbacks_response_is_concatenation_witness :
    ∃ d', run_callbacks { ctx := { model := { token_eos := 2 }, n_ctx := 512 }, response := [] }
        [{ beam_views := [{ tokens := [5, 6, 9], p := 0.5, eob := false },
                          { tokens := [5, 6, 3], p := 0.25, eob := false }],
           common_prefix_length := 2, last_call := false },
         { beam_views := [], common_prefix_length := 0, last_call := false },
         { beam_views := [{ tokens := [9, 2], p := 0.5, eob := false }],
           common_prefix_length := 1, last_call := true }] = .ok d' ∧
      d'.response = [5, 6, 9] ∧ d'.response.length = 3 := by
  obtain ⟨d', h, hr, hl⟩ := run_callbacks_response_is_concatenation
    { model := { token_eos := 2 }, n_ctx := 512 }
    [{ beam_views := [{ tokens := [5, 6, 9], p := 0.5, eob := false },
                      { tokens := [5, 6, 3], p := 0.25, eob := false }],
       common_prefix_length := 2, last_call := false },
     { beam_views := [], common_prefix_length := 0, last_call := false },
     { beam_views := [{ tokens := [9, 2], p := 0.5, eob := false }],
       common_prefix_length := 1, last_call := true }]
    (by
      intro s hs
      simp only [List.mem_cons, List.mem_singleton, List.not_mem_nil, or_false] at hs
      rcases hs with rfl | rfl | rfl
      · intro _; refine ⟨by decide, ?_⟩; intro v hv; cases hv; decide
      · intro h; exact absurd h (by decide)
      · intro _; refine ⟨by decide, ?_⟩; intro v hv; cases hv; decide)
  exact ⟨d', h, hr, hl⟩

/-- C3: when `beam_search_callback` returns, every beam whose token sequence
is non-empty and ends with the end-of-sequence token of the model has
`eob = true`; and `is_at_eob` is true exactly for a non-empty sequence whose
last token is the end-of-sequence token, so it is false for the empty one. -/
theorem callback_marks_beams_at_eos (d d' : beam_search_callback_data)
    (s s' : llama_beams_state) (h : beam_search_callback d s = .ok (d', s')) :
    s'.n_beams = s.n_beams ∧
    (∀ (i : Nat) (v : llama_beam_view), i < s'.n_beams → s'.beam_views[i]? = some v → v.tokens ≠ [] →
      v.tokens.getLast? = some (llama_token_eos (llama_get_model d.ctx)) → v.eob = true) ∧
    (∀ tokens, is_at_eob d tokens = true ↔
      tokens ≠ [] ∧ tokens.getLast? = some (llama_token_eos (llama_get_model d.ctx))) ∧
    is_at_eob d [] = false := by
  obtain ⟨hs, -, -⟩ := callback_ok_inv d d' s s' h
  subst hs
  refine ⟨by simp [llama_beams_state.n_beams], ?_, is_at_eob_iff d, rfl⟩
  intro i v _ hv hne hlast
  simp only [List.getElem?_map, Option.map_eq_some'] at hv
  obtain ⟨u, -, rfl⟩ := hv
  rw [mark_view_eob]
  rw [mark_view_tokens] at hne hlast
  have : is_at_eob d u.tokens = true := (is_at_eob_iff d u.tokens).2 ⟨hne, hlast⟩
  simp [this]

/-- Witness for C3: beam 0 ends with the end-of-sequence token 2 and comes
back flagged; beam 1 does not and comes back unflagged. -/
theorem callback_marks_beams_at_eos_witness :
    ∃ d' s', beam_search_callback
        { ctx := { model := { token_eos := 2 }, n_ctx := 512 }, response := [] }
        { beam_views := [{ tokens := [5, 2], p := 0.5, eob := false },
                         { tokens := [5, 3], p := 0.25, eob := false }],
          common_prefix_length := 1, last_call := false } = .ok (d', s') ∧
      s'.beam_views.map (fun v => v.eob) = [true, false] ∧
      (∀ (i : Nat) (v : llama_beam_view), i < s'.n_beams → s'.beam_views[i]? = some v → v.tokens ≠ [] →
        v.tokens.getLast? = some 2 → v.eob = true) :=
  ⟨_, _, rfl, by decide,
    (callback_marks_beams_at_eos
      { ctx := { model := { token_eos := 2 }, n_ctx := 512 }, response := [] } _
      { beam_views := [{ tokens := [5, 2], p := 0.5, eob := false },
                       { tokens := [5, 3], p := 0.25, eob := false }],
        common_prefix_length := 1, last_call := false } _ rfl).2.1⟩

/-- C4, counterexample: shown one beam whose tokens end with the
end-of-sequence token 2 and whose `eob` is false, the callback returns with
that beam's `eob` set to true, so the beam views are not the same after the
call as before it. -/
theorem callback_mutates_eob_counterexample :
    (∃ d' s', beam_search_callback
        { ctx := { model := { token_eos := 2 }, n_ctx := 512 }, response := [] }
        { beam_views := [{ tokens := [5, 2], p := 0.5, eob := false }],
          common_prefix_length := 0, last_call := false } = .ok (d', s') ∧
      s'.beam_views.map (fun v => v.eob) = [true]) ∧
    ¬ (∀ (d d' : beam_search_callback_data) (s s' : llama_beams_state),
        beam_search_callback d s = .ok (d', s') →
        ∀ (i : Nat) (v v' : llama_beam_view), s.beam_views[i]? = some v → s'.beam_views[i]? = some v' →
          v'.tokens = v.tokens ∧ v'.n_tokens = v.n_tokens ∧ v'.p = v.p ∧ v'.eob = v.eob) := by
  refine ⟨⟨_, _, rfl, by decide⟩, ?_⟩
  intro hall
  have h := hall
    { ctx := { model := { token_eos := 2 }, n_ctx := 512 }, response := [] } _
    { beam_views := [{ tokens := [5, 2], p := 0.5, eob := false }],
      common_prefix_length := 0, last_call := false } _ rfl 0 _ _ rfl rfl
  exact absurd h.2.2.2 (by decide)

/-- C4, amended: when the callback returns, every beam view has the same
`tokens`, `n_tokens` and `p` as before; a beam with `eob = false` for which
`is_at_eob` holds has `eob = true` afterwards, and every other beam has the
same `eob` as before; the number of beams, `common_prefix_length`, `last_call`
and the context of the callback data are unchanged, so apart from these flags
only `response` changes. -/
theorem callback_frame_except_eob (d d' : beam_search_callback_data)
    (s s' : llama_beams_state) (h : beam_search_callback d s = .ok (d', s')) :
    s'.n_beams = s.n_beams ∧
    s'.common_prefix_length = s.common_prefix_length ∧
    s'.last_call = s.last_call ∧
    d'.ctx = d.ctx ∧
    ∀ (i : Nat) (v v' : llama_beam_view), s.beam_views[i]? = some v → s'.beam_views[i]? = some v' →
      v'.tokens = v.tokens ∧ v'.n_tokens = v.n_tokens ∧ v'.p = v.p ∧
      (v.eob = false → is_at_eob d v.tokens = true → v'.eob = true) ∧
      (¬ (v.eob = false ∧ is_at_eob d v.tokens = true) → v'.eob = v.eob) := by
  obtain ⟨hs, hctx, -⟩ := callback_ok_inv d d' s s' h
  subst hs
  refine ⟨by simp [llama_beams_state.n_beams], rfl, rfl, hctx, ?_⟩
  intro i v v' hv hv'
  simp only [List.getElem?_map, hv, Option.map_some', Option.some.injEq] at hv'
  subst hv'
  refine ⟨mark_view_tokens d v, ?_, mark_view_p d v, ?_, ?_⟩
  · simp [llama_beam_view.n_tokens, mark_view_tokens]
  · intro he hat
    rw [mark_view_eob, he, hat]
    rfl
  · intro hnot
    rw [mark_view_eob]
    cases h1 : v.eob with
    | true => rfl
    | false =>
      cases h2 : is_at_eob d v.tokens with
      | true => exact absurd ⟨h1, h2⟩ hnot
      | false => rfl

/-- Witness for C4 as amended: beam 0, unflagged and ending with the
end-of-sequence token 2, is flagged by the call; its tokens and those of
beam 1 are left as they were. -/
theorem callback_frame_except_eob_witness :
    ∃ d' s', beam_search_callback
        { ctx := { model := { token_eos := 2 }, n_ctx := 512 }, response := [4] }
        { beam_views := [{ tokens := [5, 2], p := 0.5, eob := false },
                         { tokens := [5, 3], p := 0.25, eob := false }],
          common_prefix_length := 1, last_call := false } = .ok (d', s') ∧
      s'.n_beams = 2 ∧
      (∀ v', s'.beam_views[0]? = some v' → v'.tokens = [5, 2] ∧ v'.eob = true) ∧
      s'.beam_views.map (fun v => v.eob) = [true, false] ∧ d'.response = [4, 5] :=
  ⟨_, _, rfl,
    (callback_frame_except_eob
      { ctx := { model := { token_eos := 2 }, n_ctx := 512 }, response := [4] } _
      { beam_views := [{ tokens := [5, 2], p := 0.5, eob := false },
                       { tokens := [5, 3], p := 0.25, eob := false }],
        common_prefix_length := 1, last_call := false } _ rfl).1,
    fun v' hv' =>
      have h := (callback_frame_except_eob
        { ctx := { model := { token_eos := 2 }, n_ctx := 512 }, response := [4] } _
        { beam_views := [{ tokens := [5, 2], p := 0.5, eob := false },
                         { tokens := [5, 3], p := 0.25, eob := false }],
          common_prefix_length := 1, last_call := false } _ rfl).2.2.2.2 0
        { tokens := [5, 2], p := 0.5, eob := false } v' rfl hv'
      ⟨h.1, h.2.2.2.1 rfl (by decide)⟩,
    by decide, by decide⟩

/-- C5: if the first `n = common_prefix_length` tokens are the same in all
beams and `n` is at most every beam's `n_tokens`, then for every beam `i` the
callback returns and the `n` tokens it appended to `response` are the first
`n` tokens of beam `i`. -/
theorem callback_appended_tokens_any_beam (d : beam_search_callback_data)
    (s : llama_beams_state)
    (hsame : ∀ (i j : Nat) (vi vj : llama_beam_view), s.beam_views[i]? = some vi → s.beam_views[j]? = some vj →
      ∀ k, k < s.common_prefix_length → vi.tokens[k]? = vj.tokens[k]?)
    (hlen : ∀ v ∈ s.beam_views, s.common_prefix_length ≤ v.n_tokens) :
    ∀ (i : Nat) (vi : llama_beam_view), i < s.n_beams → s.beam_views[i]? = some vi →
      ∃ d' s', beam_search_callback d s = .ok (d', s') ∧
        d'.response = d.response ++ vi.tokens.take s.common_prefix_length ∧
        d'.response.drop d.response.length = vi.tokens.take s.common_prefix_length ∧
        (d'.response.drop d.response.length).length = s.common_prefix_length := by
  intro i vi hi hvi
  have hb : 0 < s.beam_views.length := by
    have : i < s.beam_views.length := hi
    omega
  have hv0 : s.beam_views[0]? = some (s.beam_views.get ⟨0, hb⟩) := by
    simp [List.getElem?_eq_getElem hb]
  have hle0 : s.common_prefix_length ≤ (s.beam_views.get ⟨0, hb⟩).tokens.length :=
    hlen _ (List.get_mem _ _ _)
  have hlei : s.common_prefix_length ≤ vi.tokens.length :=
    hlen _ (List.getElem?_mem hvi)
  have htake : (s.beam_views.get ⟨0, hb⟩).tokens.take s.common_prefix_length =
      vi.tokens.take s.common_prefix_length := by
    apply List.ext_getElem?
    intro k
    rw [List.getElem?_take, List.getElem?_take]
    by_cases hk : k < s.common_prefix_length
    · simp only [hk, if_true]
      exact hsame 0 i _ _ hv0 hvi k hk
    · simp only [hk, if_false]
  have ha := append_confirmed_tokens_ok d.response s _ hv0 hle0
  rw [htake] at ha
  refine ⟨_, _, callback_of_append d s _ ha, rfl, ?_, ?_⟩
  · show (d.response ++ _).drop _ = _
    simp
  · show ((d.response ++ _).drop _).length = _
    simp [hlei]

/-- Witness for C5: two beams sharing their first two tokens; the result is
stated for beam 1 although the callback reads beam 0. -/
theorem callback_appended_tokens_any_beam_witness :
    ∃ d' s', beam_search_callback
        { ctx := { model := { token_eos := 2 }, n_ctx := 512 }, response := [7] }
        { beam_views := [{ tokens := [5, 6, 2], p := 0.5, eob := false },
                         { tokens := [5, 6, 3], p := 0.25, eob := false }],
          common_prefix_length := 2, last_call := false } = .ok (d', s') ∧
      d'.response = [7] ++ List.take 2 [5, 6, 3] := by
  obtain ⟨d', s', h, hr, -⟩ := callback_appended_tokens_any_beam
    { ctx := { model := { token_eos := 2 }, n_ctx := 512 }, response := [7] }
    { beam_views := [{ tokens := [5, 6, 2], p := 0.5, eob := false },
                     { tokens := [5, 6, 3], p := 0.25, eob := false }],
      common_prefix_length := 2, last_call := false }
    (by
      intro i j vi vj hi hj k hk
      have hi' : i = 0 ∨ i = 1 := by
        have := (List.getElem?_eq_some.1 hi).1
        simp at this; omega
      have hj' : j = 0 ∨ j = 1 := by
        have := (List.getElem?_eq_some.1 hj).1
        simp at this; omega
      have hk' : k = 0 ∨ k = 1 := by
        simp at hk; omega
      rcases hi' with rfl | rfl <;> rcases hj' with rfl | rfl <;>
        (cases hi; cases hj; rcases hk' with rfl | rfl <;> rfl))
    (by
      intro v hv
      simp only [List.mem_cons, List.mem_singleton, List.not_mem_nil, or_false] at hv
      rcases hv with rfl | rfl <;> decide)
    1 { tokens := [5, 6, 3], p := 0.25, eob := false } (by decide) rfl
  exact ⟨d', s', h, hr⟩

/-- C7: under the engine's contract (an empty beam set comes with
`common_prefix_length = 0`, and `common_prefix_length` is at most every
beam's token count) `beam_search_callback` returns: it does not fail its
assertion `0 < n_beams`, it reads no token of beam 0 at an index at or past
`n_tokens`, and when `common_prefix_length = 0` it leaves `response` as it
was; no beam's tokens are changed. -/
theorem callback_never_fails_under_contract (d : beam_search_callback_data)
    (s : llama_beams_state) (hc : engine_contract s) :
    ∃ d' s', beam_search_callback d s = .ok (d', s') ∧
      beam_search_callback d s ≠ .error .assert_n_beams ∧
      (∀ k, beam_search_callback d s ≠ .error (.read_past_end k)) ∧
      (s.common_prefix_length ≠ 0 → 0 < s.n_beams) ∧
      (s.common_prefix_length = 0 → d'.response = d.response) ∧
      s'.beam_views.map (fun v => v.tokens) = s.beam_views.map (fun v => v.tokens) := by
  have hpre : 0 < s.common_prefix_length → 0 < s.n_beams ∧
      ∀ v, s.beam_views[0]? = some v → s.common_prefix_length ≤ v.n_tokens := by
    intro hpos
    refine ⟨?_, fun v hv => hc.2 v (List.getElem?_mem hv)⟩
    by_contra hb
    have := hc.1 (by omega)
    omega
  obtain ⟨ha, hl⟩ := append_confirmed_tokens_eq d.response s hpre
  have hcb := callback_of_append d s _ ha
  refine ⟨_, _, hcb, by rw [hcb]; simp, fun k => by rw [hcb]; simp, ?_, ?_, ?_⟩
  · intro hne
    exact (hpre (Nat.pos_of_ne_zero hne)).1
  · intro h0
    show d.response ++ confirmed_tokens s = d.response
    have : confirmed_tokens s = [] := List.eq_nil_of_length_eq_zero (by rw [hl, h0])
    rw [this, List.append_nil]
  · show (s.beam_views.map (mark_view d)).map (fun v => v.tokens) = _
    rw [List.map_map]
    apply List.map_congr_left
    intro v _
    exact mark_view_tokens d v

/-- Witness for C7: two beams of three tokens with `common_prefix_length = 2`
satisfy the contract, and the call returns with the two tokens appended. -/
theorem callback_never_fails_under_contract_witness :
    ∃ d' s', beam_search_callback
        { ctx := { model := { token_eos := 2 }, n_ctx := 512 }, response := [7, 8] }
        { beam_views := [{ tokens := [5, 6, 2], p := 0.5, eob := false },
                         { tokens := [5, 6, 3], p := 0.25, eob := false }],
          common_prefix_length := 2, last_call := true } = .ok (d', s') ∧
      s'.beam_views.map (fun v => v.tokens) = [[5, 6, 2], [5, 6, 3]] := by
  obtain ⟨d', s', h, -, -, -, -, ht⟩ := callback_never_fails_under_contract
    { ctx := { model := { token_eos := 2 }, n_ctx := 512 }, response := [7, 8] }
    { beam_views := [{ tokens := [5, 6, 2], p := 0.5, eob := false },
                     { tokens := [5, 6, 3], p := 0.25, eob := false }],
      common_prefix_length := 2, last_call := true }
    ⟨fun h => absurd h (by decide), fun v hv => by
      simp only [List.mem_cons, List.mem_singleton, List.not_mem_nil, or_false] at hv
      rcases hv with rfl | rfl <;> decide⟩
  exact ⟨d', s', h, ht⟩

/-- C8: when the callback returns, the number of beams and
`common_prefix_length` are unchanged, every beam keeps its `tokens`,
`n_tokens` and `p`, a beam with `eob = true` keeps it, and a beam with
`eob = false` has `eob = true` afterwards if and only if its token sequence is
non-empty and ends with the end-of-sequence token. -/
theorem callback_eob_monotone (d d' : beam_search_callback_data)
    (s s' : llama_beams_state) (h : beam_search_callback d s = .ok (d', s')) :
    s'.n_beams = s.n_beams ∧
    s'.common_prefix_length = s.common_prefix_length ∧
    ∀ (i : Nat) (v v' : llama_beam_view), s.beam_views[i]? = some v →
      s'.beam_views[i]? = some v' →
      v'.tokens = v.tokens ∧ v'.n_tokens = v.n_tokens ∧ v'.p = v.p ∧
      (v.eob = true → v'.eob = true) ∧
      (v.eob = false →
        (v'.eob = true ↔ (v.tokens ≠ [] ∧
          v.tokens.getLast? = some (llama_token_eos (llama_get_model d.ctx))))) := by
  obtain ⟨hs, -, -⟩ := callback_ok_inv d d' s s' h
  subst hs
  refine ⟨by simp [llama_beams_state.n_beams], rfl, ?_⟩
  intro i v v' hv hv'
  simp only [List.getElem?_map, hv, Option.map_some', Option.some.injEq] at hv'
  subst hv'
  refine ⟨mark_view_tokens d v, ?_, mark_view_p d v, ?_, ?_⟩
  · simp [llama_beam_view.n_tokens, mark_view_tokens]
  · intro he
    rw [mark_view_eob, he]; rfl
  · intro he
    rw [mark_view_eob, he, Bool.false_or]
    exact is_at_eob_iff d v.tokens

/-- Witness for C8: of three beams, one already flagged, one ending with the
end-of-sequence token 2 and one not, the flags after the call are true, true
and false. -/
theorem callback_eob_monotone_witness :
    ∃ d' s', beam_search_callback
        { ctx := { model := { token_eos := 2 }, n_ctx := 512 }, response := [] }
        { beam_views := [{ tokens := [5, 3], p := 0.5, eob := true },
                         { tokens := [5, 2], p := 0.25, eob := false },
                         { tokens := [5, 4], p := 0.125, eob := false }],
          common_prefix_length := 1, last_call := false } = .ok (d', s') ∧
      s'.n_beams = 3 ∧ s'.common_prefix_length = 1 ∧
      s'.beam_views.map (fun v => v.eob) = [true, true, false] :=
  ⟨_, _, rfl,
    (callback_eob_monotone
      { ctx := { model := { token_eos := 2 }, n_ctx := 512 }, response := [] } _
      { beam_views := [{ tokens := [5, 3], p := 0.5, eob := true },
                       { tokens := [5, 2], p := 0.25, eob := false },
                       { tokens := [5, 4], p := 0.125, eob := false }],
        common_prefix_length := 1, last_call := false } _ rfl).1,
    (callback_eob_monotone
      { ctx := { model := { token_eos := 2 }, n_ctx := 512 }, response := [] } _
      { beam_views := [{ tokens := [5, 3], p := 0.5, eob := true },
                       { tokens := [5, 2], p := 0.25, eob := false },
                       { tokens := [5, 4], p := 0.125, eob := false }],
        common_prefix_length := 1, last_call := false } _ rfl).2.1,
    by decide⟩

/-! ## The function main of the beam-search example -/

theorem parse_args_of_stoi (w : World) (argv : List String) (v : Int) (hargc : 2 < argv.length)
    (hdash : (argv[1]?.bind fun a => a.data.head?) ≠ some '-')
    (hstoi : w.stoi (argv[2]?.getD "") = some v) :
    ∃ params, parse_args w argv = .ok params ∧ params.n_beams = v := by
  unfold parse_args
  have h2 : ¬ argv.length < 2 := by omega
  simp only [h2, decide_False, Bool.false_or, beq_iff_eq, hdash, if_false, hargc, if_true, hstoi]
  exact ⟨_, rfl, rfl⟩

theorem main_of_parse_args (w : World) (argv : List String) (params : gpt_params)
    (hp : parse_args w argv = .ok params) : main w argv = main_with_params w params := by
  unfold main
  rw [hp]

theorem main_with_params_load_failed (w : World) (params : gpt_params)
    (hinit : w.llama_init_from_gpt_params params = none) :
    main_with_params w params = ⟨[], .returned 1, []⟩ := by
  unfold main_with_params
  rw [hinit]

theorem main_with_params_too_long (w : World) (params : gpt_params) (ctx : llama_context)
    (hinit : w.llama_init_from_gpt_params params = some ctx)
    (hlong : (w.llama_tokenize ctx params.prompt).length >
      size_t_sub (to_size_t (llama_n_ctx ctx)) 4) :
    main_with_params w params = ⟨[], .returned 1, []⟩ := by
  unfold main_with_params
  simp only [hinit, hlong, if_true]

theorem main_with_params_decode_failed (w : World) (params : gpt_params) (ctx : llama_context)
    (hinit : w.llama_init_from_gpt_params params = some ctx)
    (hfit : ¬ (w.llama_tokenize ctx params.prompt).length >
      size_t_sub (to_size_t (llama_n_ctx ctx)) 4)
    (hdec : w.llama_decode ctx (w.llama_tokenize ctx params.prompt)
      (to_int (w.llama_tokenize ctx params.prompt).length) 0 ≠ 0) :
    main_with_params w params =
      ⟨[.decode (w.llama_tokenize ctx params.prompt)
          (to_int (w.llama_tokenize ctx params.prompt).length) 0], .returned 1, []⟩ := by
  unfold main_with_params
  simp only [hinit, hfit, if_false, bne_iff_ne, ne_eq, hdec, not_false_eq_true, if_true]

theorem main_with_params_search (w : World) (params : gpt_params) (ctx : llama_context)
    (hinit : w.llama_init_from_gpt_params params = some ctx)
    (hfit : ¬ (w.llama_tokenize ctx params.prompt).length >
      size_t_sub (to_size_t (llama_n_ctx ctx)) 4)
    (hdec : w.llama_decode ctx (w.llama_tokenize ctx params.prompt)
      (to_int (w.llama_tokenize ctx params.prompt).length) 0 = 0) :
    (main_with_params w params).events =
      [.decode (w.llama_tokenize ctx params.prompt)
          (to_int (w.llama_tokenize ctx params.prompt).length) 0,
       .beam_search (to_size_t params.n_beams)
          (to_int (size_t_add (to_size_t 0) (w.llama_tokenize ctx params.prompt).length)) 256] ∧
    (main_with_params w params).exit ≠ .returned 1 := by
  unfold main_with_params
  simp only [hinit, hfit, if_false, bne_iff_ne, ne_eq, hdec, not_true_eq_false]
  split
  · exact ⟨rfl, by simp⟩
  · exact ⟨rfl, by simp⟩

/-- C6, counterexample: on the command line `beam-search model.gguf 0`, in a
world where the model loads and the prompt decodes, `main` invokes
`llama_beam_search` with beam width 0 and returns 0; so a beam width below 1
is not rejected. -/
theorem main_accepts_beam_width_zero :
    main example_world ["beam-search", "model.gguf", "0"] =
      ⟨[.decode [1, 15] 2 0, .beam_search 0 2 256], .returned 0, []⟩ ∧
    ¬ (∀ (w : World) (argv : List String) (v : Int), 2 < argv.length →
        (argv[1]?.bind fun a => a.data.head?) ≠ some '-' →
        w.stoi (argv[2]?.getD "") = some v → v < 1 →
        (∃ code, code ≠ 0 ∧ (main w argv).exit = .returned code) ∧
        ∀ bw np k, Event.beam_search bw np k ∉ (main w argv).events) := by
  have hrun : main example_world ["beam-search", "model.gguf", "0"] =
      ⟨[.decode [1, 15] 2 0, .beam_search 0 2 256], .returned 0, []⟩ := by decide
  refine ⟨hrun, ?_⟩
  intro hall
  have h := (hall example_world ["beam-search", "model.gguf", "0"] 0 (by decide) (by decide)
    (by decide) (by decide)).2 0 2 256
  rw [hrun] at h
  exact h (by simp)

/-- C6, amended: for a command line whose BEAM_WIDTH argument parses to an
integer `v < 1`, `main` takes `v` as `params.n_beams` without checking it.  It
returns 1 without invoking `llama_beam_search` when the model fails to load,
the prompt is too long or the prompt decode fails; otherwise it invokes
`llama_beam_search` with beam width `v` converted to `size_t` (0 for
`v = 0`, `v + 2^64` for a negative `int`) and `n_predict = 256`, and does not
return 1. -/
theorem main_beam_width_not_validated (w : World) (argv : List String) (v : Int)
    (hargc : 2 < argv.length)
    (hdash : (argv[1]?.bind fun a => a.data.head?) ≠ some '-')
    (hstoi : w.stoi (argv[2]?.getD "") = some v) (hv : v < 1) :
    ∃ params, parse_args w argv = .ok params ∧ params.n_beams = v ∧
      ((w.llama_init_from_gpt_params params = none ∨
        ∃ ctx, w.llama_init_from_gpt_params params = some ctx ∧
          ((w.llama_tokenize ctx params.prompt).length >
              size_t_sub (to_size_t (llama_n_ctx ctx)) 4 ∨
            w.llama_decode ctx (w.llama_tokenize ctx params.prompt)
              (to_int (w.llama_tokenize ctx params.prompt).length) 0 ≠ 0)) →
        (main w argv).exit = .returned 1 ∧
        ∀ bw np k, Event.beam_search bw np k ∉ (main w argv).events) ∧
      (∀ ctx, w.llama_init_from_gpt_params params = some ctx →
        ¬ (w.llama_tokenize ctx params.prompt).length >
            size_t_sub (to_size_t (llama_n_ctx ctx)) 4 →
        w.llama_decode ctx (w.llama_tokenize ctx params.prompt)
            (to_int (w.llama_tokenize ctx params.prompt).length) 0 = 0 →
        (main w argv).exit ≠ .returned 1 ∧
        ∃ np, (main w argv).events =
          [.decode (w.llama_tokenize ctx params.prompt)
              (to_int (w.llama_tokenize ctx params.prompt).length) 0,
           .beam_search (to_size_t v) np 256]) ∧
      (v = 0 → to_size_t v = 0) ∧
      (v < 0 → -2 ^ 31 ≤ v → (to_size_t v : Int) = v + 2 ^ 64) := by
  obtain ⟨params, hp, hnb⟩ := parse_args_of_stoi w argv v hargc hdash hstoi
  have hmain := main_of_parse_args w argv params hp
  refine ⟨params, hp, hnb, ?_, ?_, ?_, ?_⟩
  · intro h
    rw [hmain]
    rcases h with hnone | ⟨ctx, hinit, hlong | hdec⟩
    · rw [main_with_params_load_failed w params hnone]
      exact ⟨rfl, by simp⟩
    · rw [main_with_params_too_long w params ctx hinit hlong]
      exact ⟨rfl, by simp⟩
    · by_cases hlong : (w.llama_tokenize ctx params.prompt).length >
          size_t_sub (to_size_t (llama_n_ctx ctx)) 4
      · rw [main_with_params_too_long w params ctx hinit hlong]
        exact ⟨rfl, by simp⟩
      · rw [main_with_params_decode_failed w params ctx hinit hlong hdec]
        exact ⟨rfl, by simp⟩
  · intro ctx hinit hfit hdec
    rw [hmain]
    obtain ⟨hev, hex⟩ := main_with_params_search w params ctx hinit hfit hdec
    refine ⟨hex,
      to_int (size_t_add (to_size_t 0) (w.llama_tokenize ctx params.prompt).length), ?_⟩
    rw [hev, hnb]
  · intro h0
    subst h0
    decide
  · intro hneg hlo
    unfold to_size_t
    have h1 : v % 2 ^ 64 = v + 2 ^ 64 := by
      rw [← Int.add_emod_self, Int.emod_eq_of_lt (by omega) (by omega)]
    rw [h1, Int.toNat_of_nonneg (by omega)]

/-- Witness for C6 as amended: `beam-search model.gguf -1` reaches
`llama_beam_search` with beam width `2^64 - 1`. -/
theorem main_beam_width_not_validated_witness :
    ∃ np, (main example_world ["beam-search", "model.gguf", "-1"]).events =
      [.decode [1, 15] 2 0, .beam_search (2 ^ 64 - 1) np 256] := by
  obtain ⟨params, -, -, -, h, -, -⟩ := main_beam_width_not_validated example_world
    ["beam-search", "model.gguf", "-1"] (-1) (by decide) (by decide) (by decide) (by decide)
  obtain ⟨-, np, hev⟩ := h { model := { token_eos := 2 }, n_ctx := 512 } rfl
    (by show ¬ ([1, 15] : List llama_token).length > size_t_sub (to_size_t 512) 4; decide) rfl
  have e1 : to_size_t (-1) = 2 ^ 64 - 1 := by decide
  have e2 : to_int (([1, 15] : List llama_token).length : Int) = 2 := by decide
  change (main example_world ["beam-search", "model.gguf", "-1"]).events =
    [.decode [1, 15] (to_int (([1, 15] : List llama_token).length : Int)) 0,
     .beam_search (to_size_t (-1)) np 256] at hev
  rw [e1, e2] at hev
  exact ⟨np, hev⟩

/-- C9: for a context size `c` with `4 ≤ c` (an `int`, so `c < 2^31`) and a
prompt that tokenizes to `t` tokens, `main` returns 1 before any library call
(no decode, no search) if and only if `t > c - 4`; whenever
`llama_beam_search` is invoked, its `n_past` is `t`, `t ≤ c - 4`, and its
`n_predict` is 256; and it is invoked when `t ≤ c - 4` and the prompt decode
succeeds. -/
theorem main_prompt_length_check (w : World) (argv : List String) (params : gpt_params)
    (ctx : llama_context) (hp : parse_args w argv = .ok params)
    (hinit : w.llama_init_from_gpt_params params = some ctx)
    (hc4 : 4 ≤ llama_n_ctx ctx) (hint : llama_n_ctx ctx < 2 ^ 31) :
    (((main w argv).exit = .returned 1 ∧ (main w argv).events = []) ↔
      ((w.llama_tokenize ctx params.prompt).length : Int) > llama_n_ctx ctx - 4) ∧
    (∀ bw np k, Event.beam_search bw np k ∈ (main w argv).events →
      np = ((w.llama_tokenize ctx params.prompt).length : Int) ∧
      ((w.llama_tokenize ctx params.prompt).length : Int) ≤ llama_n_ctx ctx - 4 ∧
      k = 256) ∧
    (((w.llama_tokenize ctx params.prompt).length : Int) ≤ llama_n_ctx ctx - 4 →
      w.llama_decode ctx (w.llama_tokenize ctx params.prompt)
        ((w.llama_tokenize ctx params.prompt).length : Int) 0 = 0 →
      Event.beam_search (to_size_t params.n_beams)
        ((w.llama_tokenize ctx params.prompt).length : Int) 256 ∈ (main w argv).events) := by
  rw [main_of_parse_args w argv params hp]
  have hmax : size_t_sub (to_size_t (llama_n_ctx ctx)) 4 = (llama_n_ctx ctx).toNat - 4 := by
    rw [to_size_t_of_nonneg _ (by omega) (by omega)]
    exact size_t_sub_of_le _ 4 (by omega) (by omega)
  have hcmp : (w.llama_tokenize ctx params.prompt).length > (llama_n_ctx ctx).toNat - 4 ↔
      ((w.llama_tokenize ctx params.prompt).length : Int) > llama_n_ctx ctx - 4 := by
    omega
  by_cases hlong : (w.llama_tokenize ctx params.prompt).length >
      size_t_sub (to_size_t (llama_n_ctx ctx)) 4
  · have hlong' := hlong
    rw [hmax, hcmp] at hlong'
    rw [main_with_params_too_long w params ctx hinit hlong]
    refine ⟨⟨fun _ => hlong', fun _ => ⟨rfl, rfl⟩⟩, ?_, ?_⟩
    · intro bw np k hmem
      simp at hmem
    · intro hle
      omega
  · have hfit' : ¬ ((w.llama_tokenize ctx params.prompt).length : Int) > llama_n_ctx ctx - 4 := by
      rw [← hcmp, ← hmax]; exact hlong
    have ht : to_int ((w.llama_tokenize ctx params.prompt).length : Int) =
        ((w.llama_tokenize ctx params.prompt).length : Int) :=
      to_int_of_range _ (by omega) (by omega)
    have hnp : to_int (size_t_add (to_size_t 0) (w.llama_tokenize ctx params.prompt).length) =
        ((w.llama_tokenize ctx params.prompt).length : Int) := by
      have h0 : to_size_t 0 = 0 := by decide
      have h1 : size_t_add 0 (w.llama_tokenize ctx params.prompt).length =
          (w.llama_tokenize ctx params.prompt).length := by
        unfold size_t_add
        rw [Nat.zero_add]
        exact Nat.mod_eq_of_lt (by omega)
      rw [h0, h1]
      exact ht
    by_cases hdec : w.llama_decode ctx (w.llama_tokenize ctx params.prompt)
        (to_int (w.llama_tokenize ctx params.prompt).length) 0 = 0
    · obtain ⟨hev, hex⟩ := main_with_params_search w params ctx hinit hlong hdec
      rw [hev, hnp, ht]
      refine ⟨⟨fun h => absurd h.2 (by simp), fun h => absurd h hfit'⟩, ?_, ?_⟩
      · intro bw np k hmem
        simp only [List.mem_cons, List.mem_singleton, List.not_mem_nil, or_false] at hmem
        rcases hmem with hmem | hmem
        · cases hmem
        · injection hmem with _ h2 h3
          exact ⟨h2, by omega, h3⟩
      · intro _ _
        simp
    · rw [main_with_params_decode_failed w params ctx hinit hlong hdec]
      refine ⟨⟨fun h => absurd h.2 (by simp), fun h => absurd h hfit'⟩, ?_, ?_⟩
      · intro bw np k hmem
        simp at hmem
      · intro _ hd
        rw [ht] at hdec
        exact absurd hd hdec

/-- Witness for C9: `beam-search model.gguf 4` with context size 512 and a
two-token prompt reaches `llama_beam_search` with `n_past = 2` and
`n_predict = 256`. -/
theorem main_prompt_length_check_witness :
    Event.beam_search 4 2 256 ∈
      (main example_world ["beam-search", "model.gguf", "4"]).events :=
  (main_prompt_length_check example_world ["beam-search", "model.gguf", "4"]
    { model := "model.gguf", n_beams := 4, prompt := default_prompt }
    { model := { token_eos := 2 }, n_ctx := 512 } rfl rfl (by decide) (by decide)).2.2
    (by decide) rfl

end BeamSearch

/-! ## The batching loop of the embedding example -/

namespace Embedding

open Cxx

theorem batch_loop_nil (llama_decode : List DecodeCall → DecodeCall → Int) (n_batch : Int)
    (fuel : Nat) (n_past : Int) (calls : List DecodeCall) :
    batch_loop llama_decode n_batch fuel ⟨[], n_past, calls⟩ =
      some (.loop_done, ⟨[], n_past, calls⟩) := by
  cases fuel <;> rfl

theorem batch_loop_invariant (llama_decode : List DecodeCall → DecodeCall → Int)
    (n_batch : Int) (hb : 1 ≤ n_batch) (hdec : ∀ calls call, llama_decode calls call = 0) :
    ∀ (fuel : Nat) (inp : List llama_token) (P : Nat) (calls : List DecodeCall),
      inp.length ≤ fuel → P + inp.length < 2 ^ 31 →
      ∃ new_calls : List DecodeCall,
        batch_loop llama_decode n_batch fuel ⟨inp, (P : Int), calls⟩ =
          some (.loop_done, ⟨[], ((P + inp.length : Nat) : Int), calls ++ new_calls⟩) ∧
        (new_calls.map fun c => c.tokens).flatten = inp ∧
        (∀ c ∈ new_calls, 1 ≤ c.tokens.length ∧ (c.tokens.length : Int) ≤ n_batch ∧
          c.n_tokens = (c.tokens.length : Int)) ∧
        (∀ (k : Nat) (c : DecodeCall), new_calls[k]? = some c →
          c.pos_0 = ((P + ((new_calls.take k).map fun c => c.tokens.length).sum : Nat) : Int)) := by
  intro fuel
  induction fuel with
  | zero =>
    intro inp P calls hlen _
    have : inp = [] := List.eq_nil_of_length_eq_zero (by omega)
    subst this
    exact ⟨[], by simp [batch_loop_nil], rfl, by simp, by simp⟩
  | succ f ih =>
    intro inp P calls hlen hP
    cases inp with
    | nil => exact ⟨[], by simp [batch_loop_nil], rfl, by simp, by simp⟩
    | cons tok rest =>
      have hto : to_int (((tok :: rest).length : Nat) : Int) = ((tok :: rest).length : Nat) :=
        to_int_of_range _ (by omega) (by omega)
      obtain ⟨m, hm⟩ : ∃ m : Nat, min n_batch (to_int (((tok :: rest).length : Nat) : Int)) = (m : Int) := by
        refine ⟨(min n_batch (to_int (((tok :: rest).length : Nat) : Int))).toNat, ?_⟩
        rw [Int.toNat_of_nonneg]
        rw [hto]
        omega
      have hm1 : 1 ≤ m := by
        rw [hto] at hm
        simp only [List.length_cons] at hm
        omega
      have hm2 : m ≤ (tok :: rest).length := by
        rw [hto] at hm
        omega
      have hm3 : (m : Int) ≤ n_batch := by
        rw [← hm]; exact min_le_left _ _
      have hpast : to_int ((P : Int) + (m : Int)) = ((P + m : Nat) : Int) := by
        rw [to_int_of_range _ (by omega) (by omega)]
        push_cast; rfl
      have hdrop : ((tok :: rest).drop m).length ≤ f := by
        rw [List.length_drop]
        simp only [List.length_cons] at hlen hm2 ⊢
        omega
      have hP' : (P + m) + ((tok :: rest).drop m).length < 2 ^ 31 := by
        rw [List.length_drop]
        omega
      obtain ⟨rest_calls, hrun, hcat, hsize, hpos⟩ := ih ((tok :: rest).drop m) (P + m)
        (calls ++ [⟨(tok :: rest).take m, (m : Int), (P : Int)⟩]) hdrop hP'
      refine ⟨⟨(tok :: rest).take m, (m : Int), (P : Int)⟩ :: rest_calls, ?_, ?_, ?_, ?_⟩
      · unfold batch_loop
        simp only [hm, Int.toNat_ofNat, hdec, bne_self_eq_false, Bool.false_eq_true, if_false,
          hpast]
        have hcond : (0 : Int) ≤ (m : Int) ∧ (m : Int) ≤ (((tok :: rest).length : Nat) : Int) := by
          constructor <;> omega
        rw [if_pos hcond, hrun]
        have hl : P + m + ((tok :: rest).drop m).length = P + (tok :: rest).length := by
          rw [List.length_drop]; omega
        rw [hl]
        simp
      · simp only [List.map_cons, List.flatten_cons, hcat]
        exact List.take_append_drop m (tok :: rest)
      · intro c hc
        rcases List.mem_cons.1 hc with rfl | hc
        · have hlt : ((tok :: rest).take m).length = m := by
            rw [List.length_take]; omega
          dsimp only
          rw [hlt]
          exact ⟨hm1, hm3, rfl⟩
        · exact hsize c hc
      · intro k c hk
        cases k with
        | zero =>
          simp only [List.getElem?_cons_zero, Option.some.injEq] at hk
          subst hk
          simp
        | succ k =>
          simp only [List.getElem?_cons_succ] at hk
          rw [hpos k c hk]
          have hlt : ((tok :: rest).take m).length = m := by
            rw [List.length_take]; omega
          simp only [List.take_succ_cons, List.map_cons, List.sum_cons, hlt]
          rw [Nat.add_assoc]

/-- C10: for `n_batch ≥ 1` and a tokenized prompt of `t ≤ n_ctx` tokens
(`n_ctx` an `int`, so below `2^31`), if every `llama_decode` call succeeds
then the batching loop ends within `t` iterations: the decode calls cover
consecutive slices of the prompt, in order, each of between 1 and `n_batch`
tokens, whose concatenation is the whole prompt, each submitted at a position
equal to the number of tokens submitted before it; at the end `n_past = t`
and the pending list is empty. -/
theorem batch_loop_submits_whole_prompt (llama_decode : List DecodeCall → DecodeCall → Int)
    (n_ctx n_batch : Int) (embd_inp : List llama_token) (fuel : Nat)
    (hb : 1 ≤ n_batch) (hctx : (embd_inp.length : Int) ≤ n_ctx) (hint : n_ctx < 2 ^ 31)
    (hdec : ∀ calls call, llama_decode calls call = 0) (hfuel : embd_inp.length ≤ fuel) :
    ∃ st, main_eval_prompt llama_decode n_ctx n_batch embd_inp fuel = some (.loop_done, st) ∧
      st.n_past = (embd_inp.length : Int) ∧ st.embd_inp = [] ∧
      (st.calls.map fun c => c.tokens).flatten = embd_inp ∧
      (∀ c ∈ st.calls, 1 ≤ c.tokens.length ∧ (c.tokens.length : Int) ≤ n_batch ∧
        c.n_tokens = (c.tokens.length : Int)) ∧
      (∀ (k : Nat) (c : DecodeCall), st.calls[k]? = some c →
        c.tokens = (embd_inp.drop c.pos_0.toNat).take c.tokens.length ∧
        c.pos_0 = ((((st.calls.take k).map fun c => c.tokens.length).sum : Nat) : Int)) := by
  have hP : 0 + embd_inp.length < 2 ^ 31 := by omega
  obtain ⟨new_calls, hrun, hcat, hsize, hpos⟩ :=
    batch_loop_invariant llama_decode n_batch hb hdec fuel embd_inp 0 [] hfuel hP
  have hguard : ¬ embd_inp.length > to_size_t n_ctx := by
    rw [to_size_t_of_nonneg _ (by omega) (by omega)]
    omega
  refine ⟨⟨[], ((0 + embd_inp.length : Nat) : Int), [] ++ new_calls⟩, ?_, ?_, rfl, ?_, ?_, ?_⟩
  · unfold main_eval_prompt
    rw [if_neg hguard]
    exact hrun
  · simp
  · simpa using hcat
  · simpa using hsize
  · intro k c hk
    have hk' : new_calls[k]? = some c := by simpa using hk
    have hp := hpos k c hk'
    rw [Nat.zero_add] at hp
    refine ⟨?_, by simpa using hp⟩
    rw [hp, Int.toNat_ofNat]
    have hsplit : new_calls = new_calls.take k ++ c :: new_calls.drop (k + 1) := by
      obtain ⟨hlt, hget⟩ := List.getElem?_eq_some.1 hk'
      rw [← hget]
      exact (List.take_append_drop k new_calls).symm.trans
        (by rw [List.drop_eq_getElem_cons hlt])
    have hflat : embd_inp =
        ((new_calls.take k).map fun c => c.tokens).flatten ++
          (c.tokens ++ ((new_calls.drop (k + 1)).map fun c => c.tokens).flatten) := by
      rw [← hcat]
      conv_lhs => rw [hsplit]
      simp
    have hlen : (((new_calls.take k).map fun c => c.tokens).flatten).length =
        ((new_calls.take k).map fun c => c.tokens.length).sum := by
      rw [List.length_flatten, List.map_map]
      rfl
    conv_rhs => rw [hflat]
    rw [← hlen, List.drop_left, List.take_left]

/-- Witness for C10: five tokens with `n_batch = 2` and context size 512; the
loop ends with `n_past = 5` and nothing pending, after the slices `[1, 2]`,
`[3, 4]`, `[5]`. -/
theorem batch_loop_submits_whole_prompt_witness :
    ∃ st, main_eval_prompt (fun _ _ => 0) 512 2 [1, 2, 3, 4, 5] 5 = some (.loop_done, st) ∧
      st.n_past = 5 ∧ st.embd_inp = [] ∧
      (st.calls.map fun c => c.tokens) = [[1, 2], [3, 4], [5]] := by
  obtain ⟨st, h, hn, he, -⟩ := batch_loop_submits_whole_prompt (fun _ _ => 0) 512 2
    [1, 2, 3, 4, 5] 5 (by decide) (by decide) (by decide) (fun _ _ => rfl) (by decide)
  have hrun : main_eval_prompt (fun _ _ => 0) 512 2 [1, 2, 3, 4, 5] 5 =
      some (.loop_done, ⟨[], 5, [⟨[1, 2], 2, 0⟩, ⟨[3, 4], 2, 2⟩, ⟨[5], 1, 4⟩]⟩) := by decide
  have hst : st = ⟨[], 5, [⟨[1, 2], 2, 0⟩, ⟨[3, 4], 2, 2⟩, ⟨[5], 1, 4⟩]⟩ := by
    rw [hrun] at h
    injection h with h
    injection h with _ h
    exact h.symm
  exact ⟨st, h, by simpa using hn, he, by rw [hst]; rfl⟩

/-- With `n_batch = 0` and a non-empty pending list shorter than `2^31`, a loop
whose decode calls succeed removes nothing and does not end, whatever the
fuel. -/
theorem batch_loop_zero_batch_never_ends (llama_decode : List DecodeCall → DecodeCall → Int)
    (hdec : ∀ calls call, llama_decode calls call = 0) (tok : llama_token)
    (rest : List llama_token) (hlen : (tok :: rest).length < 2 ^ 31) :
    ∀ (fuel : Nat) (n_past : Int) (calls : List DecodeCall),
      batch_loop llama_decode 0 fuel ⟨tok :: rest, n_past, calls⟩ = none := by
  intro fuel
  induction fuel with
  | zero => intro n_past calls; rfl
  | succ f ih =>
    intro n_past calls
    have hto : to_int (((tok :: rest).length : Nat) : Int) = ((tok :: rest).length : Nat) :=
      to_int_of_range _ (by omega) (by omega)
    have hmin : min (0 : Int) (to_int (((tok :: rest).length : Nat) : Int)) = 0 := by
      rw [hto]; omega
    unfold batch_loop
    simp only [hmin, hdec, bne_self_eq_false, Bool.false_eq_true, if_false]
    have hcond : (0 : Int) ≤ 0 ∧ (0 : Int) ≤ (((tok :: rest).length : Nat) : Int) := by
      constructor <;> omega
    rw [if_pos hcond]
    exact ih _ _

end Embedding
